import Mathlib

/-!
Formal model of the FloatChat conversational session (src/ocean.py).

The file embeds, as Lean definitions, the pieces of `src/ocean.py` that the
conversational-session claims are about:

* the message record kept in `st.session_state.messages` (role / content /
  timestamp dictionaries, lines 71-78, 157, 171, 183, 189);
* session initialization (lines 71-78);
* the quick-query button handler (lines 153-175) with its canned `responses`
  dictionary and `responses.get` fallback (lines 163-169);
* the free-text send handler (lines 180-192) with its input guard
  (`if user_input and user_input.strip() != ""`, line 181) and its
  formatted echo response (line 188);
* the export tab (lines 319, 341-357): the sample table, `to_csv(index=False)`
  serialization and the per-format branch.

Wall-clock timestamps (`datetime.now().strftime("%H:%M")`) are modelled as
explicit string parameters of each step, since the handlers read the clock
and the claims never constrain the values read.
-/

/-- The `role` field of a chat message dictionary: the code only ever stores
`"user"` or `"assistant"` (lines 74, 157, 171, 183, 189). -/
inductive Role where
  | user
  | assistant
deriving DecidableEq, Repr

/-- One entry of `st.session_state.messages`: a dictionary with keys
`role`, `content`, `timestamp` (lines 72-78). -/
structure Message where
  role : Role
  content : String
  timestamp : String
deriving DecidableEq, Repr

/-- The seeded greeting message placed in the log on first access
(lines 72-78). -/
def initMsg : Message :=
  { role := Role.assistant
    content := "Hello! I'm your ocean data assistant. How can I help you explore ARGO data today?"
    timestamp := "10:00 AM" }

/-- Session initialization (lines 71-78): `if "messages" not in
st.session_state:` seed the log, otherwise leave it untouched.  The state is
`none` before the key exists and `some log` afterwards. -/
def initSession : Option (List Message) → Option (List Message)
  | none => some [initMsg]
  | some log => some log

/-- The fixed `responses` dictionary of the quick-query handler
(lines 163-168), as a partial map from query text to canned response. -/
def responses (q : String) : Option String :=
  if q = "Show floats near Hawaii" then
    some "I found 12 ARGO floats near Hawaii in the last month. Here are their trajectories and data profiles."
  else if q = "Salinity trends last 6 months" then
    some "Salinity has shown a slight decrease of 0.2 PSU in the Pacific Ocean over the last 6 months. Here's the trend analysis."
  else if q = "Temperature at 200m depth" then
    some "The average temperature at 200m depth is 15.3°C across all ARGO floats. Here's the spatial distribution."
  else if q = "Compare BGC parameters" then
    some "I've compared Bio-Geo-Chemical parameters across different ocean basins. The Indian Ocean shows higher chlorophyll concentrations."
  else
    none

/-- The quick-query handler's resolution, line 169:
`responses.get(query, "Here are the results visualized on the map and graphs.")`. -/
def resolveQuick (q : String) : String :=
  (responses q).getD "Here are the results visualized on the map and graphs."

/-- The free-text send handler's response, line 188:
`f"I'm processing your request for '{user_input}'. Here are the results visualized on the map and graphs."`. -/
def resolveFree (q : String) : String :=
  "I'm processing your request for '" ++ q ++ "'. Here are the results visualized on the map and graphs."

/-- The end-to-end query resolution the program implements: a query that is a
key of the canned `responses` dictionary is answered with its canned response
(the quick-query buttons, line 169, only ever submit such keys), and every
other query can only arrive through the free-text handler and is answered by
the echo template of line 188. -/
def resolve (q : String) : String :=
  match responses q with
  | some r => r
  | none => resolveFree q

/-- The four suggested quick-query strings (lines 145-150). -/
def suggested_queries : List String :=
  ["Show floats near Hawaii",
   "Salinity trends last 6 months",
   "Temperature at 200m depth",
   "Compare BGC parameters"]

/-- ASCII whitespace as recognized by Python's `str.strip()` with no
argument: space, tab, newline, carriage return, vertical tab, form feed. -/
def pyIsSpace (c : Char) : Bool :=
  c = ' ' || c = '\t' || c = '\n' || c = '\r' || c = '\x0b' || c = '\x0c'

/-- Python's `user_input.strip()` (line 181): drop leading and trailing
whitespace. -/
def pyStrip (s : String) : String :=
  String.mk (((s.data.dropWhile pyIsSpace).reverse.dropWhile pyIsSpace).reverse)

/-- The send handler's input guard, line 181:
`if user_input and user_input.strip() != ""` (an empty string is falsy). -/
def accepts (s : String) : Bool :=
  (s != "") && (pyStrip s != "")

/-- Effect of the quick-query button `i` (lines 153-175): append the user
message with the suggested query text and timestamp `t1`, then append the
assistant message with the `responses.get` resolution and timestamp `t2`. -/
def quickStep (i : Fin 4) (t1 t2 : String) (log : List Message) : List Message :=
  let q := suggested_queries.get i
  log ++ [{ role := Role.user, content := q, timestamp := t1 },
          { role := Role.assistant, content := resolveQuick q, timestamp := t2 }]

/-- Effect of the Send button (lines 180-192): if the guard of line 181
accepts the input, append the user message with the input text as given and
timestamp `t1`, then the assistant message with the echo response and
timestamp `t2`; otherwise leave the log unchanged. -/
def sendStep (q t1 t2 : String) (log : List Message) : List Message :=
  if accepts q then
    log ++ [{ role := Role.user, content := q, timestamp := t1 },
            { role := Role.assistant, content := resolveFree q, timestamp := t2 }]
  else
    log

/-- One user action on the chat tab: clicking quick-query button `i`, or
typing `q` and pressing Send.  The timestamp strings are the two wall-clock
reads of the handler. -/
inductive ChatAction where
  | quick (i : Fin 4) (t1 t2 : String)
  | send (q t1 t2 : String)
deriving DecidableEq, Repr

/-- The log mutation performed by one action. -/
def stepAction : ChatAction → List Message → List Message
  | ChatAction.quick i t1 t2, log => quickStep i t1 t2 log
  | ChatAction.send q t1 t2, log => sendStep q t1 t2 log

/-- An action is an accepted submit: quick-query clicks always are, a Send is
accepted exactly when the guard of line 181 passes. -/
def acceptedAction : ChatAction → Bool
  | ChatAction.quick _ _ _ => true
  | ChatAction.send q _ _ => accepts q

/-- Run a sequence of user actions against a log, oldest first. -/
def runActions : List ChatAction → List Message → List Message
  | [], log => log
  | a :: rest, log => runActions rest (stepAction a log)

/-- One row of the `sample_data` table (lines 341-348): the six columns
`date`, `latitude`, `longitude`, `temperature`, `salinity`, `depth`.  Each
field holds the cell's serialized text, the way `pandas.DataFrame.to_csv`
renders the generated value. -/
structure SampleRow where
  date : String
  latitude : String
  longitude : String
  temperature : String
  salinity : String
  depth : String
deriving DecidableEq, Repr

/-- The column names of `sample_data`, in declaration order (lines 341-348). -/
def sampleColumns : List String :=
  ["date", "latitude", "longitude", "temperature", "salinity", "depth"]

/-- The cells of a sample row, in column order. -/
def rowCells (r : SampleRow) : List String :=
  [r.date, r.latitude, r.longitude, r.temperature, r.salinity, r.depth]

/-- Join a list of strings with a separator (the comma of the CSV encoding). -/
def joinWith (sep : String) : List String → String
  | [] => ""
  | [x] => x
  | x :: y :: rest => x ++ sep ++ joinWith sep (y :: rest)

/-- Concatenate a list of strings. -/
def concatAll : List String → String
  | [] => ""
  | x :: rest => x ++ concatAll rest

/-- One line of the CSV encoding: cells joined by commas, terminated by a
newline. -/
def csvLine (cells : List String) : String :=
  joinWith "," cells ++ "\n"

/-- `sample_data.to_csv(index=False)` (line 352): the header line with the
column names, then one comma-delimited line per row, with no index column. -/
def to_csv (rows : List SampleRow) : String :=
  csvLine sampleColumns ++ concatAll (rows.map (fun r => csvLine (rowCells r)))

/-- Split a character list at every occurrence of the delimiter `d`
(the pieces do not contain `d`; `n` delimiters yield `n + 1` pieces). -/
def splitCh (d : Char) : List Char → List (List Char)
  | [] => [[]]
  | c :: cs =>
    let rest := splitCh d cs
    if c = d then [] :: rest
    else
      match rest with
      | [] => [[c]]
      | piece :: pieces => (c :: piece) :: pieces

/-- Split a string at every occurrence of the delimiter character. -/
def splitString (d : Char) (s : String) : List String :=
  (splitCh d s.data).map String.mk

/-- The export formats offered by the selectbox on line 319. -/
inductive ExportFormat where
  | CSV
  | NetCDF
  | JSON
  | Excel
deriving DecidableEq, Repr

/-- The display name of an export format, as it appears in the selectbox. -/
def formatName : ExportFormat → String
  | ExportFormat.CSV => "CSV"
  | ExportFormat.NetCDF => "NetCDF"
  | ExportFormat.JSON => "JSON"
  | ExportFormat.Excel => "Excel"

/-- Outcome of the download column (lines 351-357): either a download button
holding a produced file, or a non-fatal warning. -/
inductive ExportOutcome where
  | download (fileName mimeType content : String)
  | warning (msg : String)
deriving DecidableEq, Repr

/-- The per-format branch of the export tab (lines 351-357): CSV serializes
`sample_data` and offers the download; Excel warns with its fixed message;
every other format warns with the formatted message of line 357. -/
def exportTab (fmt : ExportFormat) (rows : List SampleRow) : ExportOutcome :=
  match fmt with
  | ExportFormat.CSV => ExportOutcome.download "argo_data.csv" "text/csv" (to_csv rows)
  | ExportFormat.Excel => ExportOutcome.warning "Excel export requires additional setup. Please use CSV format for now."
  | f => ExportOutcome.warning (formatName f ++ " export requires additional setup. Please use CSV format for now.")

/-- The data line of one sample row: its cells joined by commas (no trailing
newline, no index cell). -/
def dataLine (r : SampleRow) : String :=
  joinWith "," (rowCells r)

/-- The header line `pandas` emits for `sample_data` with `index=False`. -/
def headerLine : String :=
  "date,latitude,longitude,temperature,salinity,depth"

/-! ### Helper lemmas about the CSV encoding -/

/-- Splitting a delimiter-free character list yields the single piece. -/
lemma splitCh_no_delim (d : Char) (a : List Char) (h : d ∉ a) :
    splitCh d a = [a] := by
  induction a with
  | nil => rfl
  | cons c cs ih =>
      have hc : ¬ c = d := fun hcd => h (hcd ▸ List.mem_cons_self c cs)
      have hcs : d ∉ cs := fun hm => h (List.mem_cons_of_mem c hm)
      simp only [splitCh, if_neg hc, ih hcs]

/-- Splitting at the first delimiter occurrence peels off the leading
delimiter-free piece. -/
lemma splitCh_append (d : Char) (a b : List Char) (h : d ∉ a) :
    splitCh d (a ++ d :: b) = a :: splitCh d b := by
  induction a with
  | nil => simp [splitCh]
  | cons c cs ih =>
      have hc : ¬ c = d := fun hcd => h (hcd ▸ List.mem_cons_self c cs)
      have hcs : d ∉ cs := fun hm => h (List.mem_cons_of_mem c hm)
      simp only [List.cons_append, splitCh, if_neg hc, List.append_eq, ih hcs]

/-- A character absent from the separator and from every cell is absent from
their join. -/
lemma joinWith_not_mem (c : Char) (sep : String) (hsep : c ∉ sep.data)
    (cells : List String) (h : ∀ x ∈ cells, c ∉ x.data) :
    c ∉ (joinWith sep cells).data := by
  induction cells with
  | nil => simp [joinWith]
  | cons x xs ih =>
      cases xs with
      | nil =>
          simpa [joinWith] using h x (List.mem_cons_self x [])
      | cons y ys =>
          have hx : c ∉ x.data := h x (List.mem_cons_self x (y :: ys))
          have hrest : c ∉ (joinWith sep (y :: ys)).data :=
            ih fun z hz => h z (List.mem_cons_of_mem x hz)
          simp only [joinWith, String.data_append, List.mem_append]
          push_neg
          exact ⟨⟨hx, hsep⟩, hrest⟩

/-- Splitting a comma-join of comma-free cells recovers the cells. -/
lemma splitString_joinComma (cells : List String)
    (h : ∀ x ∈ cells, ',' ∉ x.data) (hne : cells ≠ []) :
    splitString ',' (joinWith "," cells) = cells := by
  induction cells with
  | nil => exact absurd rfl hne
  | cons x xs ih =>
      cases xs with
      | nil =>
          have hx : ',' ∉ x.data := h x (List.mem_cons_self x [])
          simp [splitString, joinWith, splitCh_no_delim ',' x.data hx]
      | cons y ys =>
          have hx : ',' ∉ x.data := h x (List.mem_cons_self x (y :: ys))
          have hrest := ih (fun z hz => h z (List.mem_cons_of_mem x hz)) (by simp)
          have hdata : (x ++ "," ++ joinWith "," (y :: ys)).data =
              x.data ++ ',' :: (joinWith "," (y :: ys)).data := by
            simp [String.data_append]
          simp only [joinWith] at hrest ⊢
          simp only [splitString, hdata, splitCh_append ',' _ _ hx, List.map_cons]
          rw [show String.mk x.data = x from rfl]
          simp only [splitString] at hrest
          rw [hrest]

/-- Splitting a newline-terminated-line concatenation at newlines recovers
the lines, plus the empty piece after the final newline. -/
lemma splitCh_concat_lines (lines : List String)
    (h : ∀ l ∈ lines, '\n' ∉ l.data) :
    splitString '\n' (concatAll (lines.map (fun l => l ++ "\n"))) =
      lines ++ [""] := by
  induction lines with
  | nil => rfl
  | cons l ls ih =>
      have hl : '\n' ∉ l.data := h l (List.mem_cons_self l ls)
      have hrest := ih fun z hz => h z (List.mem_cons_of_mem l hz)
      have hdata : (l ++ "\n" ++ concatAll (ls.map (fun x => x ++ "\n"))).data =
          l.data ++ '\n' :: (concatAll (ls.map (fun x => x ++ "\n"))).data := by
        simp [String.data_append]
      simp only [List.map_cons, concatAll, splitString, hdata,
        splitCh_append '\n' _ _ hl, List.map_cons]
      rw [show String.mk l.data = l from rfl]
      simp only [splitString] at hrest
      rw [hrest]
      simp

/-! ### Helper lemmas about the chat log -/

/-- Every action only extends the log: the previous log is a prefix of the
new one. -/
lemma stepAction_extends (a : ChatAction) (log : List Message) :
    log <+: stepAction a log := by
  cases a with
  | quick i t1 t2 => exact List.prefix_append _ _
  | send q t1 t2 =>
      simp only [stepAction, sendStep]
      split
      · exact List.prefix_append _ _
      · exact List.prefix_refl _

/-- Running any sequence of actions only extends the log. -/
lemma runActions_extends (acts : List ChatAction) (log : List Message) :
    log <+: runActions acts log := by
  induction acts generalizing log with
  | nil => exact List.prefix_refl _
  | cons a rest ih => exact (stepAction_extends a log).trans (ih (stepAction a log))

/-- Running concatenated action lists runs them in sequence. -/
lemma runActions_append (acts1 acts2 : List ChatAction) (log : List Message) :
    runActions (acts1 ++ acts2) log = runActions acts2 (runActions acts1 log) := by
  induction acts1 generalizing log with
  | nil => rfl
  | cons a rest ih => simp only [List.cons_append, runActions, List.append_eq, ih]

/-- The roles of a well-formed log alternate: the seed and every response are
assistant messages (even positions), every submitted query is a user message
(odd positions). -/
def rolesAlternate (log : List Message) : Prop :=
  ∀ j m, log[j]? = some m →
    m.role = (if j % 2 = 1 then Role.user else Role.assistant)

/-- The fresh log satisfies the alternation invariant. -/
lemma rolesAlternate_init : rolesAlternate [initMsg] := by
  intro j m hj
  match j with
  | 0 => simp at hj; simp [← hj, initMsg]
  | j + 1 => simp at hj

/-- Appending a user/assistant pair to an odd-length log preserves the
alternation invariant. -/
lemma rolesAlternate_append_pair (log : List Message) (u v : Message)
    (hlen : log.length % 2 = 1) (hu : u.role = Role.user)
    (hv : v.role = Role.assistant) (h : rolesAlternate log) :
    rolesAlternate (log ++ [u, v]) := by
  intro j m hj
  rcases Nat.lt_or_ge j log.length with hlt | hge
  · rw [List.getElem?_append_left hlt] at hj
    exact h j m hj
  · rw [List.getElem?_append_right hge] at hj
    rcases hk : j - log.length with _ | k
    · rw [hk] at hj
      simp at hj
      have hjeq : j = log.length := by omega
      have : j % 2 = 1 := by omega
      rw [if_pos this, ← hj, hu]
    · rcases k with _ | k2
      · rw [hk] at hj
        simp at hj
        have hjeq : j = log.length + 1 := by omega
        have : ¬ j % 2 = 1 := by omega
        rw [if_neg this, ← hj, hv]
      · rw [hk] at hj
        simp at hj

/-- An accepted action appends exactly one user message followed by one
assistant message. -/
lemma stepAction_accepted (a : ChatAction) (log : List Message)
    (h : acceptedAction a = true) :
    ∃ u v, stepAction a log = log ++ [u, v] ∧
      u.role = Role.user ∧ v.role = Role.assistant := by
  cases a with
  | quick i t1 t2 =>
      exact ⟨{ role := Role.user, content := suggested_queries.get i, timestamp := t1 },
             { role := Role.assistant, content := resolveQuick (suggested_queries.get i),
               timestamp := t2 }, rfl, rfl, rfl⟩
  | send q t1 t2 =>
      have hq : accepts q = true := h
      refine ⟨{ role := Role.user, content := q, timestamp := t1 },
              { role := Role.assistant, content := resolveFree q, timestamp := t2 },
              ?_, rfl, rfl⟩
      simp only [stepAction, sendStep]
      rw [if_pos hq]

/-- Main invariant of the chat log: a sequence of accepted actions grows the
log by exactly two messages per action and preserves role alternation. -/
lemma run_invariant (acts : List ChatAction) :
    ∀ log, (∀ a ∈ acts, acceptedAction a = true) →
      log.length % 2 = 1 → rolesAlternate log →
      (runActions acts log).length = log.length + 2 * acts.length ∧
        rolesAlternate (runActions acts log) := by
  induction acts with
  | nil => intro log _ _ hroles; exact ⟨by simp [runActions], hroles⟩
  | cons a rest ih =>
      intro log hacc hlen hroles
      obtain ⟨u, v, hstep, hu, hv⟩ :=
        stepAction_accepted a log (hacc a (List.mem_cons_self a rest))
      have hrest : ∀ b ∈ rest, acceptedAction b = true :=
        fun b hb => hacc b (List.mem_cons_of_mem a hb)
      have hlen2 : (log ++ [u, v]).length % 2 = 1 := by
        simp [List.length_append]; omega
      have hroles2 : rolesAlternate (log ++ [u, v]) :=
        rolesAlternate_append_pair log u v hlen hu hv hroles
      have hmain := ih (log ++ [u, v]) hrest hlen2 hroles2
      constructor
      · have : runActions (a :: rest) log = runActions rest (log ++ [u, v]) := by
          simp only [runActions, hstep]
        rw [this, hmain.1]
        simp [List.length_append]; omega
      · have : runActions (a :: rest) log = runActions rest (log ++ [u, v]) := by
          simp only [runActions, hstep]
        rw [this]
        exact hmain.2

/-! ### Demo inputs used by the witnesses -/

/-- A concrete accepted action sequence: one quick-query click and one
accepted free-text send. -/
def demoActs : List ChatAction :=
  [ChatAction.quick 0 "10:05" "10:06", ChatAction.send " hello " "10:07" "10:08"]

/-- A concrete two-row sample table with comma-free, newline-free cells. -/
def demoRows : List SampleRow :=
  [{ date := "2024-01-01", latitude := "10.5", longitude := "-140.2",
     temperature := "18.3", salinity := "35.1", depth := "100.0" },
   { date := "2024-01-02", latitude := "-33.9", longitude := "151.2",
     temperature := "21.7", salinity := "34.8", depth := "250.5" }]

/-! ### The claims -/

/-- C1: after any sequence of accepted submit actions on an initialized
session, the log has length `1 + 2N`, the log only ever grows by appending
(every earlier log is a prefix of every later one), and every user message is
immediately followed by an assistant message. -/
theorem c1_append_only_pairing (acts : List ChatAction)
    (hacc : ∀ a ∈ acts, acceptedAction a = true) :
    (runActions acts [initMsg]).length = 1 + 2 * acts.length ∧
    (∀ extra : List ChatAction,
      runActions acts [initMsg] <+: runActions (acts ++ extra) [initMsg]) ∧
    (∀ j m, (runActions acts [initMsg])[j]? = some m → m.role = Role.user →
      ∃ n, (runActions acts [initMsg])[j + 1]? = some n ∧
        n.role = Role.assistant) := by
  have hinv := run_invariant acts [initMsg] hacc (by decide) rolesAlternate_init
  have hlen : (runActions acts [initMsg]).length = 1 + 2 * acts.length := by
    rw [hinv.1]; simp
  refine ⟨hlen, ?_, ?_⟩
  · intro extra
    rw [runActions_append]
    exact runActions_extends extra _
  · intro j m hj hrole
    have hroles := hinv.2
    have hju := hroles j m hj
    have hjodd : j % 2 = 1 := by
      by_cases hp : j % 2 = 1
      · exact hp
      · rw [if_neg hp] at hju
        rw [hrole] at hju
        exact absurd hju (by decide)
    have hjlt : j < (runActions acts [initMsg]).length :=
      (List.getElem?_eq_some_iff.mp hj).1
    have hlt1 : j + 1 < (runActions acts [initMsg]).length := by
      rw [hlen] at hjlt ⊢; omega
    have hsome : (runActions acts [initMsg])[j + 1]? =
        some ((runActions acts [initMsg]).get ⟨j + 1, hlt1⟩) :=
      List.getElem?_eq_getElem hlt1
    refine ⟨_, hsome, ?_⟩
    have hnext := hroles (j + 1) _ hsome
    rw [if_neg (by omega)] at hnext
    exact hnext

/-- Witness for C1 at a concrete accepted action sequence. -/
theorem c1_witness :
    (∀ a ∈ demoActs, acceptedAction a = true) ∧
    ((runActions demoActs [initMsg]).length = 1 + 2 * demoActs.length ∧
    (∀ extra : List ChatAction,
      runActions demoActs [initMsg] <+: runActions (demoActs ++ extra) [initMsg]) ∧
    (∀ j m, (runActions demoActs [initMsg])[j]? = some m → m.role = Role.user →
      ∃ n, (runActions demoActs [initMsg])[j + 1]? = some n ∧
        n.role = Role.assistant)) :=
  ⟨by decide, c1_append_only_pairing demoActs (by decide)⟩

/-- C2: for any query that is not a key of the canned mapping, the resolution
is the echo template, which contains the query verbatim; and the resolution of
any query whatsoever is non-empty (and, being a total function, never
fails). -/
theorem c2_fallback_totality (q : String) :
    (responses q = none → ∃ a b, resolve q = a ++ q ++ b) ∧ resolve q ≠ "" := by
  constructor
  · intro h
    refine ⟨"I'm processing your request for '",
            "'. Here are the results visualized on the map and graphs.", ?_⟩
    simp only [resolve, h, resolveFree, String.append_assoc]
  · cases hr : responses q with
    | some r =>
        have hres : resolve q = r := by simp [resolve, hr]
        rw [hres]
        unfold responses at hr
        split_ifs at hr <;> (injection hr with hr2; rw [← hr2]; decide)
    | none =>
        have hres : resolve q = resolveFree q := by simp [resolve, hr]
        rw [hres]
        intro he
        have hd := congrArg String.data he
        simp [resolveFree, String.data_append] at hd

/-- Witness for C2 at a concrete non-canned query. -/
theorem c2_witness :
    responses "What is ENSO?" = none ∧
    (∃ a b, resolve "What is ENSO?" = a ++ "What is ENSO?" ++ b) ∧
    resolve "What is ENSO?" ≠ "" :=
  ⟨by decide, (c2_fallback_totality "What is ENSO?").1 (by decide),
   (c2_fallback_totality "What is ENSO?").2⟩

/-- C3 counterexample: clicking the first quick-query button and sending the
same literal text through the free-text input produce logs with different
message contents (the button appends the canned response, the free-text path
appends the echo response). -/
theorem c3_counterexample :
    (quickStep 0 "10:01" "10:02" [initMsg]).map Message.content ≠
      (sendStep "Show floats near Hawaii" "10:01" "10:02" [initMsg]).map
        Message.content := by
  decide

/-- C3 amended: for each of the four quick-query strings, the shortcut and
the free-text send append the same user message content and each appends
exactly one assistant message, but the assistant contents differ: the
shortcut resolves through the canned mapping's exact-match branch while the
free-text send always uses the echo template. -/
theorem c3_quick_vs_send (i : Fin 4) (t1 t2 : String) (log : List Message) :
    (quickStep i t1 t2 log =
        log ++ [{ role := Role.user, content := suggested_queries.get i,
                  timestamp := t1 },
                { role := Role.assistant,
                  content := resolveQuick (suggested_queries.get i),
                  timestamp := t2 }] ∧
      responses (suggested_queries.get i) =
        some (resolveQuick (suggested_queries.get i))) ∧
    sendStep (suggested_queries.get i) t1 t2 log =
      log ++ [{ role := Role.user, content := suggested_queries.get i,
                timestamp := t1 },
              { role := Role.assistant,
                content := resolveFree (suggested_queries.get i),
                timestamp := t2 }] ∧
    resolveQuick (suggested_queries.get i) ≠
      resolveFree (suggested_queries.get i) := by
  refine ⟨⟨rfl, ?_⟩, ?_, ?_⟩
  · fin_cases i <;> decide
  · have hacc : accepts (suggested_queries.get i) = true := by
      fin_cases i <;> decide
    simp only [sendStep, if_pos hacc]
  · fin_cases i <;> decide

/-- C4: on a freshly initialized session, the quick-query submit of
"Temperature at 200m depth" leaves a 3-message log whose second entry is the
user message with that content and whose third entry is the assistant message
with the canned spatial-distribution response. -/
theorem c4_end_to_end (t1 t2 : String) :
    initSession none = some [initMsg] ∧
    (quickStep 2 t1 t2 [initMsg]).length = 3 ∧
    (quickStep 2 t1 t2 [initMsg])[1]? =
      some { role := Role.user, content := "Temperature at 200m depth",
             timestamp := t1 } ∧
    (quickStep 2 t1 t2 [initMsg])[2]? =
      some { role := Role.assistant,
             content := "The average temperature at 200m depth is 15.3°C across all ARGO floats. Here's the spatial distribution.",
             timestamp := t2 } := by
  refine ⟨rfl, rfl, ?_, ?_⟩ <;>
    simp [quickStep, suggested_queries, resolveQuick, responses]

/-- C5: the resolution of each of the four canned queries is the exact fixed
response string of the mapping, both for the end-to-end resolution and for
the quick-query handler's lookup; as pure functions of the query they are
deterministic across calls and sessions. -/
theorem c5_resolution_determinism :
    resolve "Show floats near Hawaii" =
        "I found 12 ARGO floats near Hawaii in the last month. Here are their trajectories and data profiles." ∧
    resolveQuick "Show floats near Hawaii" =
        "I found 12 ARGO floats near Hawaii in the last month. Here are their trajectories and data profiles." ∧
    resolve "Salinity trends last 6 months" =
        "Salinity has shown a slight decrease of 0.2 PSU in the Pacific Ocean over the last 6 months. Here's the trend analysis." ∧
    resolveQuick "Salinity trends last 6 months" =
        "Salinity has shown a slight decrease of 0.2 PSU in the Pacific Ocean over the last 6 months. Here's the trend analysis." ∧
    resolve "Temperature at 200m depth" =
        "The average temperature at 200m depth is 15.3°C across all ARGO floats. Here's the spatial distribution." ∧
    resolveQuick "Temperature at 200m depth" =
        "The average temperature at 200m depth is 15.3°C across all ARGO floats. Here's the spatial distribution." ∧
    resolve "Compare BGC parameters" =
        "I've compared Bio-Geo-Chemical parameters across different ocean basins. The Indian Ocean shows higher chlorophyll concentrations." ∧
    resolveQuick "Compare BGC parameters" =
        "I've compared Bio-Geo-Chemical parameters across different ocean basins. The Indian Ocean shows higher chlorophyll concentrations." := by
  decide

/-- C6: a fresh initialization seeds the log with exactly the single
assistant greeting message carrying the fixed placeholder timestamp, and
initializing an already-initialized session leaves its log unchanged. -/
theorem c6_seed_invariant :
    initSession none = some [initMsg] ∧
    (∀ log, initSession (some log) = some log) ∧
    [initMsg].length = 1 ∧
    initMsg.role = Role.assistant ∧
    initMsg.content =
      "Hello! I'm your ocean data assistant. How can I help you explore ARGO data today?" ∧
    initMsg.timestamp = "10:00 AM" :=
  ⟨rfl, fun _ => rfl, rfl, rfl, rfl, rfl⟩

/-- C7: a send whose input trims to the empty string appends nothing — the
log is returned unchanged. -/
theorem c7_empty_input_rejected (q t1 t2 : String) (log : List Message)
    (h : pyStrip q = "") :
    sendStep q t1 t2 log = log := by
  have hacc : accepts q = false := by simp [accepts, h]
  simp [sendStep, hacc]

/-- Witness for C7 at the empty and the whitespace-only input. -/
theorem c7_witness :
    (pyStrip "   " = "" ∧ sendStep "   " "10:01" "10:02" [initMsg] = [initMsg]) ∧
    (pyStrip "" = "" ∧ sendStep "" "10:03" "10:04" [initMsg] = [initMsg]) :=
  ⟨⟨by decide, c7_empty_input_rejected "   " "10:01" "10:02" [initMsg] (by decide)⟩,
   ⟨by decide, c7_empty_input_rejected "" "10:03" "10:04" [initMsg] (by decide)⟩⟩

/-- C8: every export format other than CSV yields a user-visible warning and
never a produced download file. -/
theorem c8_unsupported_export (fmt : ExportFormat) (rows : List SampleRow)
    (h : fmt ≠ ExportFormat.CSV) :
    ∃ msg, exportTab fmt rows = ExportOutcome.warning msg ∧
      ∀ name mime content,
        exportTab fmt rows ≠ ExportOutcome.download name mime content := by
  cases fmt with
  | CSV => exact absurd rfl h
  | NetCDF => exact ⟨_, rfl, fun name mime content hc => ExportOutcome.noConfusion hc⟩
  | JSON => exact ⟨_, rfl, fun name mime content hc => ExportOutcome.noConfusion hc⟩
  | Excel => exact ⟨_, rfl, fun name mime content hc => ExportOutcome.noConfusion hc⟩

/-- Witness for C8 at the NetCDF format. -/
theorem c8_witness :
    ExportFormat.NetCDF ≠ ExportFormat.CSV ∧
    ∃ msg, exportTab ExportFormat.NetCDF demoRows = ExportOutcome.warning msg ∧
      ∀ name mime content,
        exportTab ExportFormat.NetCDF demoRows ≠
          ExportOutcome.download name mime content :=
  ⟨by decide, c8_unsupported_export ExportFormat.NetCDF demoRows (by decide)⟩

/-- C9: for cells free of delimiters, the CSV export splits at newlines into
the header line with exactly the six named columns, followed by one
comma-delimited line per sample row (whose cells are exactly the row's six
fields, with no index column), and the empty piece after the final
newline. -/
theorem c9_csv_shape (rows : List SampleRow)
    (h : ∀ r ∈ rows, ∀ cell ∈ rowCells r, ',' ∉ cell.data ∧ '\n' ∉ cell.data) :
    splitString '\n' (to_csv rows) = headerLine :: rows.map dataLine ++ [""] ∧
    splitString ',' headerLine = sampleColumns ∧
    ∀ r ∈ rows, splitString ',' (dataLine r) = rowCells r := by
  refine ⟨?_, by decide, ?_⟩
  · have hto : to_csv rows =
        concatAll ((joinWith "," sampleColumns :: rows.map dataLine).map
          (fun l => l ++ "\n")) := by
      simp only [List.map_cons, List.map_map]
      rfl
    have hlines : ∀ l ∈ joinWith "," sampleColumns :: rows.map dataLine,
        '\n' ∉ l.data := by
      intro l hl
      rcases List.mem_cons.mp hl with hhd | hmem
      · rw [hhd]; decide
      · obtain ⟨r, hr, hrl⟩ := List.mem_map.mp hmem
        rw [← hrl]
        exact joinWith_not_mem '\n' "," (by decide) (rowCells r)
          fun cell hc => (h r hr cell hc).2
    rw [hto, splitCh_concat_lines _ hlines,
      show joinWith "," sampleColumns = headerLine from by decide]
  · intro r hr
    exact splitString_joinComma (rowCells r)
      (fun cell hc => (h r hr cell hc).1) (by simp [rowCells])

/-- Witness for C9 at a concrete two-row table. -/
theorem c9_witness :
    (∀ r ∈ demoRows, ∀ cell ∈ rowCells r, ',' ∉ cell.data ∧ '\n' ∉ cell.data) ∧
    (splitString '\n' (to_csv demoRows) =
        headerLine :: demoRows.map dataLine ++ [""] ∧
      splitString ',' headerLine = sampleColumns ∧
      ∀ r ∈ demoRows, splitString ',' (dataLine r) = rowCells r) :=
  ⟨by decide, c9_csv_shape demoRows (by decide)⟩

/-- C10: an accepted free-text send stores the input text exactly as given —
the trimmed form only gates acceptance, the appended user message's content
is the untrimmed input. -/
theorem c10_content_untrimmed (q t1 t2 : String) (log : List Message)
    (h : pyStrip q ≠ "") :
    sendStep q t1 t2 log =
      log ++ [{ role := Role.user, content := q, timestamp := t1 },
              { role := Role.assistant, content := resolveFree q,
                timestamp := t2 }] := by
  have hq : q ≠ "" := by
    intro he
    exact h (by rw [he]; rfl)
  have h1 : (q != "") = true := by simpa [bne_iff_ne] using hq
  have h2 : (pyStrip q != "") = true := by simpa [bne_iff_ne] using h
  have hacc : accepts q = true := by simp [accepts, h1, h2]
  simp [sendStep, hacc]

/-- Witness for C10 at an input with surrounding whitespace. -/
theorem c10_witness :
    pyStrip "  hi  " ≠ "" ∧
    sendStep "  hi  " "10:01" "10:02" [initMsg] =
      [initMsg] ++ [{ role := Role.user, content := "  hi  ", timestamp := "10:01" },
                    { role := Role.assistant, content := resolveFree "  hi  ",
                      timestamp := "10:02" }] :=
  ⟨by decide, c10_content_untrimmed "  hi  " "10:01" "10:02" [initMsg] (by decide)⟩
